import Mathlib

/-!
Verification of the Provider Resolution and Fallback Engine of the
mission-alpha-viral-shorts repository.

The development shallowly embeds the two core source files:

* `backend/app/core/plugin_loader.py` — `PluginLoader.load`,
  `PluginLoader.clear_cache`, the plugin registry lookup and the
  class-level instance cache;
* `backend/app/core/ai_fallback.py` — `AIProviderWithFallback.__init__`,
  `_load_primary`, `_load_fallback` and `generate_script`.

Provider instances are abstract (`ι`), operation results are abstract
(`ρ`); construction and operation outcomes are supplied as oracles
(`Except String ι` / `Except String ρ`, the `String` being the Python
exception's message, which is all the source ever inspects).
-/

deriving instance DecidableEq for Except

namespace MissionAlpha

/-- The shape of a capability's `fallback` configuration field:
absent, a single scalar string, or a list of strings
(`config.py` uses both `fallback: str` and `fallback: List[str]`). -/
inductive FallbackCfg where
  | absent
  | scalar (s : String)
  | list (l : List String)
deriving DecidableEq

/-- A capability's configuration: `provider` (primary) plus `fallback`. -/
structure ProviderConfig where
  provider : String
  fallback : FallbackCfg
deriving DecidableEq

/-- The provider registry: capability name to provider-name table, where a
table entry gives the outcome of importing and instantiating that
provider's class (`PLUGIN_REGISTRY` lookup followed by
`plugin_class(provider_config)`); `Except.error` is the raised message. -/
def Registry (ι : Type) := String → Option (String → Option (Except String ι))

/-- The class-level instance cache `PluginLoader._cache`, keyed by
capability name. -/
def Cache (ι : Type) := String → Option ι

/-- `cls._cache[plugin_type] = plugin_instance` -/
def cacheSet (c : Cache ι) (k : String) (v : ι) : Cache ι :=
  fun x => if x = k then some v else c x

/-- `PluginLoader._cache.pop(key, None)` -/
def cachePop (c : Cache ι) (k : String) : Cache ι :=
  fun x => if x = k then none else c x

/-- `PluginLoader.clear_cache()` — `cls._cache.clear()`. -/
def clearCache : Cache ι := fun _ => none

/-- Chain built by `PluginLoader.load` (plugin_loader.py lines 87-99):
`[primary]`, then for a list fallback the comprehension
`[p for p in fallback_list if p != primary]`, and for a nonempty scalar
fallback a single conditional append. -/
def providersToTry (primary : String) : FallbackCfg → List String
  | .absent => [primary]
  | .list l => primary :: l.filter (fun q => q ≠ primary)
  | .scalar s => if s ≠ "" ∧ s ≠ primary then [primary, s] else [primary]

/-- Chain built by `AIProviderWithFallback.__init__` (ai_fallback.py lines
31-40): same seed `[primary]`, `extend` with the identical comprehension
for a list, and a truthiness-guarded append for a scalar. -/
def aiChainOf (primary : String) : FallbackCfg → List String
  | .absent => [primary]
  | .list l => primary :: l.filter (fun q => q ≠ primary)
  | .scalar s => if s ≠ "" then (if s ≠ primary then [primary, s] else [primary]) else [primary]

/-- Message of the `ValueError` raised at plugin_loader.py line 110. -/
def unknownCapMsg (cap : String) : String :=
  "Unknown plugin type: " ++ cap

/-- The aggregated failure raised by `PluginLoader.load` when the loop
finishes without a successful construction (lines 152-159): the message
carries the full candidate list `providers_to_try` and `str(last_error)`
(`none` when no iteration assigned `last_error`). -/
inductive PlugError where
  | exhausted (chain : List String) (lastError : Option String)
deriving DecidableEq

/-- Result of one `PluginLoader.load` call: the returned instance or the
raised `RuntimeError`, the cache afterwards, and the list of candidates
the loop iterated over (the "Attempting to load" log events, in order). -/
structure LoadResult (ι : Type) where
  result : Except PlugError ι
  cache : Cache ι
  attempts : List String

/-- The candidate loop of `PluginLoader.load` (lines 104-150).  Per
iteration: an unregistered capability raises `ValueError`, caught by the
`except` which records it as `last_error` and continues; an unknown
provider name hits `continue` directly (no exception, `last_error`
unchanged); a failing construction records its error and continues; a
successful construction returns immediately.  Returns the outcome
(`.error` carries the final `last_error`) plus the iterated candidates. -/
def tryProviders (capKnown : Bool) (tbl : String → Option (Except String ι))
    (cap : String) :
    List String → Option String → Except (Option String) (String × ι) × List String
  | [], lastError => (.error lastError, [])
  | name :: rest, lastError =>
    if capKnown then
      match tbl name with
      | none =>
        let r := tryProviders capKnown tbl cap rest lastError
        (r.1, name :: r.2)
      | some (.error e) =>
        let r := tryProviders capKnown tbl cap rest (some e)
        (r.1, name :: r.2)
      | some (.ok inst) => (.ok (name, inst), [name])
    else
      let r := tryProviders capKnown tbl cap rest (some (unknownCapMsg cap))
      (r.1, name :: r.2)

/-- Body of `PluginLoader.load` past the cache check: read the settings,
build the chain, run the candidate loop; on success cache the instance,
on failure raise the aggregated `RuntimeError` leaving the cache alone. -/
def pluginLoadFresh (reg : Registry ι) (settings : String → ProviderConfig)
    (cap : String) (cache : Cache ι) : LoadResult ι :=
  let pc := settings cap
  let chain := providersToTry pc.provider pc.fallback
  let tbl : String → Option (Except String ι) := fun n => (reg cap).bind (fun t => t n)
  match tryProviders (reg cap).isSome tbl cap chain none with
  | (.ok (_, inst), att) => ⟨.ok inst, cacheSet cache cap inst, att⟩
  | (.error le, att) => ⟨.error (.exhausted chain le), cache, att⟩

/-- `PluginLoader.load(plugin_type, force_reload)` (lines 63-159): return
the cached instance when present and no forced reload, otherwise run the
fresh-load body. -/
def pluginLoad (reg : Registry ι) (settings : String → ProviderConfig)
    (cap : String) (forceReload : Bool) (cache : Cache ι) : LoadResult ι :=
  match cache cap, forceReload with
  | some inst, false => ⟨.ok inst, cache, []⟩
  | some _, true => pluginLoadFresh reg settings cap cache
  | none, _ => pluginLoadFresh reg settings cap cache

/-! ## The runtime fallback wrapper (`ai_fallback.py`) -/

/-- `needle in hay` on Python strings: some suffix of `hay` starts with
`needle` (the empty needle is contained in everything). -/
def containsSub (needle : List Char) : List Char → Bool
  | [] => needle.isEmpty
  | c :: rest => needle.isPrefixOf (c :: rest) || containsSub needle rest

/-- `str.lower()`, character by character (the markers are ASCII). -/
def lowerChars : List Char → List Char
  | [] => []
  | c :: cs => c.toLower :: lowerChars cs

/-- The quota/rate-limit marker list of ai_fallback.py lines 121-124. -/
def quotaMarkers : List String :=
  ["quota", "rate limit", "429", "too many requests", "resource_exhausted", "exceeded"]

/-- The two-way label the wrapper derives from an error message. -/
inductive ErrClass where
  | transient
  | unknown
deriving DecidableEq

/-- The error classifier of `generate_script` (lines 118-124):
`is_quota_error = any(x in str(e).lower() for x in [...])`. -/
def classify (msg : String) : ErrClass :=
  if quotaMarkers.any (fun m => containsSub m.data (lowerChars msg.data)) then
    .transient
  else
    .unknown

/-- The mutable state touched by `AIProviderWithFallback`: the global
settings field `settings.ai.provider` (which `_load_fallback` overrides
and sometimes fails to restore), the loader's class-level cache, and the
wrapper's `_current_provider` / `_current_provider_name` attributes. -/
structure AIState (ι : Type) where
  settingsProvider : String
  cache : Cache ι
  currentProvider : Option ι
  currentProviderName : Option String

/-- The immutable data of one `AIProviderWithFallback` object: the
registry, the `settings.ai.fallback` field (never mutated), the
`primary_provider_name` and `providers_to_try` attributes captured by
`__init__`, and the provider operation oracle (`generate_script` of an
instance, returning a result or raising a message). -/
structure AICfg (ι ρ : Type) where
  registry : Registry ι
  fb : FallbackCfg
  primaryName : String
  chain : List String
  op : ι → Except String ρ

/-- `AIProviderWithFallback._load_primary`: call `PluginLoader.load('ai')`
(no forced reload); on success set both current-provider attributes, on
failure null out `_current_provider` leaving the name attribute as it
was. -/
def loadPrimary (cfg : AICfg ι ρ) (st : AIState ι) : AIState ι :=
  let lr := pluginLoad cfg.registry (fun _ => ⟨st.settingsProvider, cfg.fb⟩) "ai" false st.cache
  match lr.result with
  | .ok inst =>
    { st with cache := lr.cache, currentProvider := some inst,
              currentProviderName := some cfg.primaryName }
  | .error _ => { st with cache := lr.cache, currentProvider := none }

/-- `AIProviderWithFallback._load_fallback(provider_name)`: pop the 'ai'
cache entry, override `settings.ai.provider`, force-reload through
`PluginLoader.load`, and restore the override only on the success path;
the failure path returns `False` with the override still in place. -/
def loadFallbackStep (cfg : AICfg ι ρ) (name : String) (st : AIState ι) :
    Bool × AIState ι :=
  let c1 := cachePop st.cache "ai"
  let lr := pluginLoad cfg.registry (fun _ => ⟨name, cfg.fb⟩) "ai" true c1
  match lr.result with
  | .ok inst =>
    (true, { settingsProvider := st.settingsProvider, cache := lr.cache,
             currentProvider := some inst, currentProviderName := some name })
  | .error _ =>
    (false, { st with settingsProvider := name, cache := lr.cache })

/-- The per-candidate reload step of `generate_script` (lines 92-97):
reuse the current provider when its name matches, reload the primary via
`_load_primary` when the candidate is the primary, otherwise try
`_load_fallback`; `false` means `continue` to the next candidate. -/
def resolveCandidate (cfg : AICfg ι ρ) (name : String) (st : AIState ι) :
    Bool × AIState ι :=
  if st.currentProviderName = some name then (true, st)
  else if name = cfg.primaryName then (true, loadPrimary cfg st)
  else loadFallbackStep cfg name st

/-- What `generate_script` does at the end: return the bare `result` on
success, or raise the aggregated `RuntimeError` carrying `tried_providers`
and `str(last_error)` when the loop exhausts the chain. -/
inductive GenResult (ρ : Type) where
  | ok (r : ρ)
  | exhausted (tried : List String) (lastError : Option String)
deriving DecidableEq

/-- The log line emitted when a candidate's operation raises: the quota
warning when the message classifies as transient, the generic warning
otherwise (lines 126-129). -/
inductive LogEv where
  | quotaWarn (name : String)
  | errWarn (name msg : String)
deriving DecidableEq

/-- Selects the log event for an operation failure from the classifier. -/
def logOf (cl : String → ErrClass) (name msg : String) : LogEv :=
  match cl msg with
  | .transient => .quotaWarn name
  | .unknown => .errWarn name msg

/-- The candidate loop of `generate_script` (lines 89-140), parametrised
by the classifier `cl` (used only to pick the log line).  Accumulators:
`tried` is the local `tried_providers` (appended right before the
operation call), `lastError` the local `last_error`, `logs` the emitted
failure log events.  Returns the outcome, the state, the final
`tried_providers`, and the logs. -/
def genLoop (cfg : AICfg ι ρ) (cl : String → ErrClass) :
    List String → AIState ι → List String → Option String → List LogEv →
    GenResult ρ × AIState ι × List String × List LogEv
  | [], st, tried, lastError, logs => (.exhausted tried lastError, st, tried, logs)
  | name :: rest, st, tried, lastError, logs =>
    match resolveCandidate cfg name st with
    | (false, st1) => genLoop cfg cl rest st1 tried lastError logs
    | (true, st1) =>
      match st1.currentProvider with
      | none => genLoop cfg cl rest st1 tried lastError logs
      | some inst =>
        match cfg.op inst with
        | .ok r => (.ok r, st1, tried ++ [name], logs)
        | .error e =>
          genLoop cfg cl rest st1 (tried ++ [name]) (some e)
            (logs ++ [logOf cl name e])

/-- `AIProviderWithFallback.generate_script(content)`: run the candidate
loop over `providers_to_try` with empty accumulators and the real
classifier. -/
def generateScript (cfg : AICfg ι ρ) (st : AIState ι) :
    GenResult ρ × AIState ι × List String × List LogEv :=
  genLoop cfg classify cfg.chain st [] none []

/-- `AIProviderWithFallback.__init__`: capture the primary name and the
fallback configuration, build `providers_to_try`, and eagerly call
`_load_primary`. -/
def aiInit (reg : Registry ι) (op : ι → Except String ρ) (provider0 : String)
    (fb : FallbackCfg) (cache0 : Cache ι) : AICfg ι ρ × AIState ι :=
  let cfg : AICfg ι ρ :=
    { registry := reg, fb := fb, primaryName := provider0,
      chain := aiChainOf provider0 fb, op := op }
  (cfg, loadPrimary cfg { settingsProvider := provider0, cache := cache0,
                          currentProvider := none, currentProviderName := none })

/-! ## Spec-side definitions

These follow the specification's words, for comparison against the
definitions above, which are translated from the source. -/

/-- Order-preserving first-occurrence deduplication, skipping anything in
`seen`. -/
def dedupSkipping (seen : List String) : List String → List String
  | [] => []
  | x :: xs =>
    if seen.contains x then dedupSkipping seen xs
    else x :: dedupSkipping (x :: seen) xs

/-- The chain the spec describes: the primary followed by the fallback
names with the primary removed and duplicates removed, first occurrence
kept, original order preserved. -/
def specChain (p : String) (f : List String) : List String :=
  p :: dedupSkipping [] (f.filter (fun q => q ≠ p))

/-- The fallback names surviving the amended chain description: the
fallback field with every occurrence of the primary removed, order and
duplicate occurrences preserved; a nonempty scalar different from the
primary counts as a one-element list. -/
def fbRemaining (p : String) : FallbackCfg → List String
  | .absent => []
  | .list l => l.filter (fun q => q ≠ p)
  | .scalar s => if s ≠ "" ∧ s ≠ p then [s] else []

/-- The spec's transient markers that the code actually honours. -/
def specTransient3 (msg : String) : Bool :=
  ["quota", "rate limit", "429"].any (fun m => containsSub m.data (lowerChars msg.data))

/-- All four transient markers named by the spec, including
"resource exhausted" written with a space. -/
def specTransient4 (msg : String) : Bool :=
  ["quota", "rate limit", "429", "resource exhausted"].any
    (fun m => containsSub m.data (lowerChars msg.data))

/-! ## Concrete scenarios used by witnesses and counterexamples -/

/-- Provider table where a, b, c all construct successfully (instances
1, 2, 3). -/
def tblW : String → Option (Except String Nat) := fun n =>
  if n = "a" then some (Except.ok 1)
  else if n = "b" then some (Except.ok 2)
  else if n = "c" then some (Except.ok 3)
  else none

/-- Registry with capability "ai" offering providers a, b, c that all
construct successfully (instances 1, 2, 3). -/
def regW : Registry Nat := fun cap =>
  if cap = "ai" then some tblW else none

/-- Settings for the plugin-loader scenarios: every capability is
configured with primary "a" and fallback list ["b"]. -/
def settingsW : String → ProviderConfig := fun _ => ⟨"a", .list ["b"]⟩

/-- Operation oracle where only instance 1 succeeds. -/
def opA : Nat → Except String Nat := fun i =>
  if i = 1 then .ok 42 else .error "boom"

/-- Operation oracle where instance 1 fails and instance 2 succeeds with
the same result value that `opA` gives for instance 1. -/
def opB : Nat → Except String Nat := fun i =>
  if i = 2 then .ok 42 else .error "boom"

/-- Run A: primary "a" with no fallback, primary's operation succeeds. -/
def runA : AICfg Nat Nat × AIState Nat := aiInit regW opA "a" .absent clearCache

/-- Run B: primary "a" fails at the operation, fallback "b" succeeds with
the same result value. -/
def runB : AICfg Nat Nat × AIState Nat := aiInit regW opB "a" (.list ["b"]) clearCache

/-- Registry where "ai" offers only provider a (instance 1); b is
unregistered. -/
def regC : Registry Nat := fun cap =>
  if cap = "ai" then
    some (fun n => if n = "a" then some (Except.ok 1) else none)
  else none

/-- Operation oracle that always raises "ea". -/
def opC : Nat → Except String Nat := fun _ => .error "ea"

/-- Run C: chain ["a","b"]; a's operation raises, b cannot be loaded, so
the invocation exhausts with a one-entry tried list. -/
def runC : AICfg Nat Nat × AIState Nat := aiInit regC opC "a" (.list ["b"]) clearCache

/-- Registry where "ai" offers p (instance 1) and a (instance 2). -/
def regD : Registry Nat := fun cap =>
  if cap = "ai" then
    some (fun n =>
      if n = "p" then some (Except.ok 1)
      else if n = "a" then some (Except.ok 2)
      else none)
  else none

/-- Operation oracle that always raises "err". -/
def opD : Nat → Except String Nat := fun _ => .error "err"

/-- Run D: fallback list ["a","a"] with a repeated name; every operation
raises, so candidate a is attempted twice. -/
def runD : AICfg Nat Nat × AIState Nat := aiInit regD opD "p" (.list ["a","a"]) clearCache

/-- Registry where "ai" provider a fails to construct and b constructs as
instance 2. -/
def regE : Registry Nat := fun cap =>
  if cap = "ai" then
    some (fun n =>
      if n = "a" then some (Except.error "missing credential")
      else if n = "b" then some (Except.ok 2)
      else none)
  else none

/-- Operation oracle where instance 2 succeeds with 7. -/
def opE : Nat → Except String Nat := fun i =>
  if i = 2 then .ok 7 else .error "boom"

/-- Run E: primary a's construction fails, so the eager primary load
falls back internally to b's instance while labelling it "a". -/
def runE : AICfg Nat Nat × AIState Nat := aiInit regE opE "a" (.list ["b"]) clearCache

/-- Instances of tblW by provider name. -/
def instFW : String → Nat := fun n =>
  if n = "b" then 2 else if n = "c" then 3 else 1

/-- Operation oracle where only instance 3 succeeds (with 9). -/
def opF : Nat → Except String Nat := fun i =>
  if i = 3 then .ok 9 else .error "boom"

/-- `str(e).isOk`: whether a construction or operation outcome is a
success. -/
def exOk : Except ε α → Bool
  | .ok _ => true
  | .error _ => false

/-- An instance that some registered provider of `cap` constructs
successfully. -/
def ConstructedOk (reg : Registry ι) (cap : String) (inst : ι) : Prop :=
  ∃ tbl name, reg cap = some tbl ∧ tbl name = some (Except.ok inst)

/-- The instance-cache invariant: every cached instance was successfully
constructed by a registered provider of its capability. -/
def GoodCache (reg : Registry ι) (c : Cache ι) : Prop :=
  ∀ cap inst, c cap = some inst → ConstructedOk reg cap inst

/-! ## Helper lemmas -/

/-- The chain built by the plugin loader always starts with the primary. -/
theorem providersToTry_cons (p : String) (fb : FallbackCfg) :
    ∃ t, providersToTry p fb = p :: t := by
  cases fb with
  | absent => exact ⟨[], rfl⟩
  | list l => exact ⟨_, rfl⟩
  | scalar s =>
    by_cases h : s ≠ "" ∧ s ≠ p
    · exact ⟨[s], by simp [providersToTry, h]⟩
    · exact ⟨[], by simp [providersToTry, h]⟩

/-- The chain built by the wrapper always starts with the primary. -/
theorem aiChainOf_cons (p : String) (fb : FallbackCfg) :
    ∃ t, aiChainOf p fb = p :: t := by
  cases fb with
  | absent => exact ⟨[], rfl⟩
  | list l => exact ⟨_, rfl⟩
  | scalar s =>
    by_cases h1 : s = ""
    · exact ⟨[], by simp [aiChainOf, h1]⟩
    · by_cases h2 : s = p
      · exact ⟨[], by simp [aiChainOf, h1, h2]⟩
      · exact ⟨[s], by simp [aiChainOf, h1, h2]⟩

/-- A forced reload always takes the fresh-load path. -/
theorem pluginLoad_force (reg : Registry ι) (s : String → ProviderConfig)
    (cap : String) (c : Cache ι) :
    pluginLoad reg s cap true c = pluginLoadFresh reg s cap c := by
  rcases h : c cap with _ | i <;> simp [pluginLoad, h]

/-- A cache miss always takes the fresh-load path. -/
theorem pluginLoad_miss (reg : Registry ι) (s : String → ProviderConfig)
    (cap : String) (f : Bool) (c : Cache ι) (h : c cap = none) :
    pluginLoad reg s cap f c = pluginLoadFresh reg s cap c := by
  cases f <;> simp [pluginLoad, h]

/-- When the configured primary constructs successfully, the fresh load
returns its instance after a single attempt and caches it. -/
theorem pluginLoadFresh_head_ok (reg : Registry ι)
    (tbl : String → Option (Except String ι)) (s : String → ProviderConfig)
    (cap : String) (c : Cache ι) (inst : ι)
    (hreg : reg cap = some tbl)
    (h1 : tbl (s cap).provider = some (.ok inst)) :
    pluginLoadFresh reg s cap c = ⟨.ok inst, cacheSet c cap inst, [(s cap).provider]⟩ := by
  obtain ⟨t, ht⟩ := providersToTry_cons (s cap).provider (s cap).fallback
  simp [pluginLoadFresh, ht, hreg, tryProviders, h1]

/-- `_load_fallback` with a constructible provider name: the forced
reload succeeds at its first candidate, so the step returns `True`,
points the wrapper at the fresh instance, stores it in the cache slot and
restores the settings override. -/
theorem loadFallbackStep_ok (cfg : AICfg ι ρ)
    (tbl : String → Option (Except String ι)) (name : String)
    (st : AIState ι) (inst : ι)
    (hreg : cfg.registry "ai" = some tbl)
    (h1 : tbl name = some (.ok inst)) :
    loadFallbackStep cfg name st =
      (true, ⟨st.settingsProvider, cacheSet (cachePop st.cache "ai") "ai" inst,
              some inst, some name⟩) := by
  have hfresh := pluginLoadFresh_head_ok cfg.registry tbl
    (fun _ => ⟨name, cfg.fb⟩) "ai" (cachePop st.cache "ai") inst hreg h1
  simp [loadFallbackStep, pluginLoad_force, hfresh]

/-- With an unregistered capability the candidate loop of
`PluginLoader.load` iterates the whole list, raising and catching the
same `ValueError` at every step, and finishes with that message as the
last error (or the incoming one if the list is empty). -/
theorem tryProviders_capUnknown (tbl : String → Option (Except String ι))
    (cap : String) (names : List String) :
    ∀ le, tryProviders false tbl cap names le =
      (.error (if names.isEmpty then le else some (unknownCapMsg cap)), names) := by
  induction names with
  | nil => intro le; simp [tryProviders]
  | cons n rest ih => intro le; simp [tryProviders, ih]

/-- A successful candidate loop got its instance from the table. -/
theorem tryProviders_ok_construct (tbl : String → Option (Except String ι))
    (cap : String) (names : List String) :
    ∀ (ck : Bool) (le : Option String) (name : String) (inst : ι),
      (tryProviders ck tbl cap names le).1 = .ok (name, inst) →
      tbl name = some (.ok inst) := by
  induction names with
  | nil => intro ck le name inst h; simp [tryProviders] at h
  | cons n rest ih =>
    intro ck le name inst h
    cases ck with
    | false =>
      simp only [tryProviders] at h
      exact ih false (some (unknownCapMsg cap)) name inst h
    | true =>
      simp only [tryProviders] at h
      rcases htbl : tbl n with _ | co
      · rw [htbl] at h
        exact ih true le name inst h
      · rcases co with e | i
        · rw [htbl] at h
          exact ih true (some e) name inst h
        · rw [htbl] at h
          simp only [Except.ok.injEq, Prod.mk.injEq] at h
          obtain ⟨rfl, rfl⟩ := h
          exact htbl

/-- The final `tried_providers` of the wrapper's candidate loop extends
the incoming accumulator by a subsequence of the candidate list: a
candidate contributes at most one entry, appended in chain order, and
only when its operation was actually invoked. -/
theorem genLoop_tried_extends (cfg : AICfg ι ρ) (cl : String → ErrClass)
    (names : List String) :
    ∀ (st : AIState ι) (tried : List String) (le : Option String)
      (logs : List LogEv),
      ∃ s, (genLoop cfg cl names st tried le logs).2.2.1 = tried ++ s ∧
        s.Sublist names := by
  induction names with
  | nil =>
    intro st tried le logs
    exact ⟨[], by simp [genLoop], List.nil_sublist _⟩
  | cons name rest ih =>
    intro st tried le logs
    simp only [genLoop]
    split
    · rename_i st1 heq
      obtain ⟨s, hs, hsub⟩ := ih st1 tried le logs
      exact ⟨s, hs, hsub.cons name⟩
    · rename_i st1 heq
      split
      · obtain ⟨s, hs, hsub⟩ := ih st1 tried le logs
        exact ⟨s, hs, hsub.cons name⟩
      · rename_i inst hcp
        split
        · rename_i r hop
          exact ⟨[name], rfl, (List.nil_sublist rest).cons₂ name⟩
        · rename_i e hop
          obtain ⟨s, hs, hsub⟩ := ih st1 (tried ++ [name]) (some e)
            (logs ++ [logOf cl name e])
          refine ⟨name :: s, ?_, hsub.cons₂ name⟩
          rw [hs]
          simp

/-- The exhausted outcome carries exactly the loop's final
`tried_providers`. -/
theorem genLoop_exhausted_tried (cfg : AICfg ι ρ) (cl : String → ErrClass)
    (names : List String) :
    ∀ (st : AIState ι) (tried : List String) (le : Option String)
      (logs : List LogEv) (t : List String) (le' : Option String),
      (genLoop cfg cl names st tried le logs).1 = .exhausted t le' →
      t = (genLoop cfg cl names st tried le logs).2.2.1 := by
  induction names with
  | nil =>
    intro st tried le logs t le' h
    simp only [genLoop] at h ⊢
    simp only [GenResult.exhausted.injEq] at h
    exact h.1.symm
  | cons name rest ih =>
    intro st tried le logs t le' h
    simp only [genLoop] at h ⊢
    split at h
    · rename_i st1 heq
      exact ih st1 tried le logs t le' h
    · rename_i st1 heq
      split at h
      · exact ih st1 tried le logs t le' h
      · rename_i inst hcp
        split at h
        · simp at h
        · rename_i e hop
          exact ih st1 (tried ++ [name]) (some e) (logs ++ [logOf cl name e]) t le' h

/-- When the loop proceeds to the operation call on some instance, the
wrapper's name attribute matches the candidate: either it matched
already, or the reload set it. -/
theorem resolveCandidate_name (cfg : AICfg ι ρ) (name : String)
    (st st1 : AIState ι) (inst : ι)
    (h : resolveCandidate cfg name st = (true, st1))
    (hp : st1.currentProvider = some inst) :
    st1.currentProviderName = some name := by
  unfold resolveCandidate at h
  by_cases h1 : st.currentProviderName = some name
  · rw [if_pos h1] at h
    simp only [Prod.mk.injEq, true_and] at h
    rw [← h]
    exact h1
  · rw [if_neg h1] at h
    by_cases h2 : name = cfg.primaryName
    · rw [if_pos h2] at h
      simp only [Prod.mk.injEq, true_and] at h
      simp only [loadPrimary] at h
      split at h
      · rename_i inst2 hres
        rw [← h]
        simp [h2]
      · rename_i hres
        rw [← h] at hp
        simp at hp
    · rw [if_neg h2] at h
      simp only [loadFallbackStep] at h
      split at h
      · rename_i inst2 hres
        simp only [Prod.mk.injEq, true_and] at h
        rw [← h]
      · simp at h

/-- When the wrapper's loop returns a result, that result is exactly what
the serving instance's operation produced, the tried list is nonempty,
and the wrapper's current-provider name is the last tried candidate. -/
theorem genLoop_ok_shape (cfg : AICfg ι ρ) (cl : String → ErrClass)
    (names : List String) :
    ∀ (st : AIState ι) (tried : List String) (le : Option String)
      (logs : List LogEv) (r : ρ) (st' : AIState ι) (tried' : List String)
      (logs' : List LogEv),
      genLoop cfg cl names st tried le logs = (.ok r, st', tried', logs') →
      (∃ inst, st'.currentProvider = some inst ∧ cfg.op inst = .ok r) ∧
      tried' ≠ [] ∧ st'.currentProviderName = tried'.getLast? := by
  induction names with
  | nil =>
    intro st tried le logs r st' tried' logs' h
    simp [genLoop] at h
  | cons name rest ih =>
    intro st tried le logs r st' tried' logs' h
    simp only [genLoop] at h
    split at h
    · rename_i st1 heq
      exact ih st1 tried le logs r st' tried' logs' h
    · rename_i st1 heq
      split at h
      · exact ih st1 tried le logs r st' tried' logs' h
      · rename_i inst hcp
        split at h
        · rename_i r2 hop
          simp only [Prod.mk.injEq, GenResult.ok.injEq] at h
          obtain ⟨h1, h2, h3, h4⟩ := h
          subst h1 h2 h3 h4
          refine ⟨⟨inst, hcp, hop⟩, by simp, ?_⟩
          rw [resolveCandidate_name cfg name st st1 inst heq hcp]
          simp
        · rename_i e hop
          exact ih st1 (tried ++ [name]) (some e) (logs ++ [logOf cl name e])
            r st' tried' logs' h

/-- The classifier influences only the choice of log line: with any two
classifiers, the loop produces the same outcome, the same final state and
the same tried list. -/
theorem genLoop_cl_agnostic (cfg : AICfg ι ρ) (cl cl' : String → ErrClass)
    (names : List String) :
    ∀ (st : AIState ι) (tried : List String) (le : Option String)
      (logs logs' : List LogEv),
      (genLoop cfg cl names st tried le logs).1
          = (genLoop cfg cl' names st tried le logs').1 ∧
      (genLoop cfg cl names st tried le logs).2.1
          = (genLoop cfg cl' names st tried le logs').2.1 ∧
      (genLoop cfg cl names st tried le logs).2.2.1
          = (genLoop cfg cl' names st tried le logs').2.2.1 := by
  induction names with
  | nil =>
    intro st tried le logs logs'
    exact ⟨rfl, rfl, rfl⟩
  | cons name rest ih =>
    intro st tried le logs logs'
    simp only [genLoop]
    rcases hrc : resolveCandidate cfg name st with ⟨b, st1⟩
    cases b
    · exact ih st1 tried le logs logs'
    · dsimp only
      rcases hcp : st1.currentProvider with _ | inst
      · exact ih st1 tried le logs logs'
      · dsimp only
        rcases hop : cfg.op inst with e | r
        · exact ih st1 (tried ++ [name]) (some e)
            (logs ++ [logOf cl name e]) (logs' ++ [logOf cl' name e])
        · exact ⟨rfl, rfl, rfl⟩

/-- Main success lemma: if every remaining candidate before `nk`
constructs successfully but fails its operation, and `nk` constructs and
succeeds, the loop returns `nk`'s operation result, appends exactly those
candidates to the tried list, points the wrapper at `nk`, caches `nk`'s
instance and leaves the settings override restored. -/
theorem genLoop_allConstruct_ok (cfg : AICfg ι ρ) (cl : String → ErrClass)
    (tbl : String → Option (Except String ι)) (instF : String → ι)
    (nk : String) (lpost : List String) (r : ρ)
    (hreg : cfg.registry "ai" = some tbl)
    (hck : tbl nk = some (.ok (instF nk)))
    (hok : cfg.op (instF nk) = .ok r)
    (lpre : List String) :
    ∀ (st : AIState ι) (tried : List String) (le : Option String)
      (logs : List LogEv) (m : String),
      (∀ n ∈ lpre, tbl n = some (.ok (instF n))) →
      (∀ n ∈ lpre, exOk (cfg.op (instF n)) = false) →
      (lpre ++ [nk]).Nodup →
      cfg.primaryName ∉ lpre ++ [nk] →
      st.currentProviderName = some m →
      m ∉ lpre ++ [nk] →
      ∃ st' logs',
        genLoop cfg cl (lpre ++ nk :: lpost) st tried le logs =
          (.ok r, st', tried ++ lpre ++ [nk], logs') ∧
        st'.currentProviderName = some nk ∧
        st'.cache "ai" = some (instF nk) ∧
        st'.settingsProvider = st.settingsProvider := by
  induction lpre with
  | nil =>
    intro st tried le logs m hc hfail hnd hprim hm hmnot
    simp only [List.nil_append, genLoop]
    have hmn : m ≠ nk := by simpa using hmnot
    have hne1 : ¬(st.currentProviderName = some nk) := by
      rw [hm]
      simp [hmn]
    have hne2 : ¬(nk = cfg.primaryName) := by
      intro h
      exact hprim (by simp [h])
    have hrc : resolveCandidate cfg nk st =
        (true, ⟨st.settingsProvider,
                cacheSet (cachePop st.cache "ai") "ai" (instF nk),
                some (instF nk), some nk⟩) := by
      unfold resolveCandidate
      rw [if_neg hne1, if_neg hne2]
      exact loadFallbackStep_ok cfg tbl nk st (instF nk) hreg hck
    rw [hrc]
    dsimp only
    rw [hok]
    refine ⟨⟨st.settingsProvider,
             cacheSet (cachePop st.cache "ai") "ai" (instF nk),
             some (instF nk), some nk⟩, logs, ?_, rfl, ?_, rfl⟩
    · simp
    · simp [cacheSet]
  | cons n lpre' ih =>
    intro st tried le logs m hc hfail hnd hprim hm hmnot
    simp only [List.cons_append, genLoop]
    have hmem : n ∈ n :: lpre' := by simp
    have hmn : m ≠ n := by
      intro h
      exact hmnot (by simp [h])
    have hne1 : ¬(st.currentProviderName = some n) := by
      rw [hm]
      simp [hmn]
    have hne2 : ¬(n = cfg.primaryName) := by
      intro h
      exact hprim (by simp [h])
    have hrc : resolveCandidate cfg n st =
        (true, ⟨st.settingsProvider,
                cacheSet (cachePop st.cache "ai") "ai" (instF n),
                some (instF n), some n⟩) := by
      unfold resolveCandidate
      rw [if_neg hne1, if_neg hne2]
      exact loadFallbackStep_ok cfg tbl n st (instF n) hreg (hc n hmem)
    rw [hrc]
    dsimp only
    rcases hop : cfg.op (instF n) with e | r2
    · dsimp only
      have hnd' : (lpre' ++ [nk]).Nodup := by
        simp only [List.cons_append, List.nodup_cons] at hnd
        exact hnd.2
      have hninl : n ∉ lpre' ++ [nk] := by
        simp only [List.cons_append, List.nodup_cons] at hnd
        exact hnd.1
      have hprim' : cfg.primaryName ∉ lpre' ++ [nk] := by
        intro h
        exact hprim (by simp [List.mem_append] at h ⊢; tauto)
      obtain ⟨st', logs', heq, h1, h2, h3⟩ :=
        ih ⟨st.settingsProvider,
            cacheSet (cachePop st.cache "ai") "ai" (instF n),
            some (instF n), some n⟩
          (tried ++ [n]) (some e) (logs ++ [logOf cl n e]) n
          (fun x hx => hc x (by simp [hx]))
          (fun x hx => hfail x (by simp [hx]))
          hnd' hprim' rfl hninl
      refine ⟨st', logs', ?_, h1, h2, h3⟩
      refine heq.trans ?_
      simp
    · have := hfail n hmem
      rw [hop] at this
      simp [exOk] at this

/-- The fresh-load path either leaves the cache unchanged or stores an
instance that some registered provider of the capability constructed
successfully. -/
theorem pluginLoadFresh_spec (reg : Registry ι) (settings : String → ProviderConfig)
    (cap : String) (cache : Cache ι) :
    (pluginLoadFresh reg settings cap cache).cache = cache ∨
    (∃ inst, ConstructedOk reg cap inst ∧
       (pluginLoadFresh reg settings cap cache).cache = cacheSet cache cap inst) := by
  simp only [pluginLoadFresh]
  split
  · rename_i name inst att heq
    right
    refine ⟨inst, ?_, rfl⟩
    have h1 : (tryProviders (reg cap).isSome (fun n => (reg cap).bind (fun t => t n)) cap
        (providersToTry (settings cap).provider (settings cap).fallback) none).1
          = .ok (name, inst) := by
      rw [heq]
    have h2 := tryProviders_ok_construct (fun n => (reg cap).bind (fun t => t n)) cap
      (providersToTry (settings cap).provider (settings cap).fallback)
      (reg cap).isSome none name inst h1
    rcases hrc : reg cap with _ | t
    · rw [hrc] at h2
      simp at h2
    · rw [hrc] at h2
      simp only [Option.bind] at h2
      exact ⟨t, name, hrc, h2⟩
  · left
    rfl

/-- A failing fresh load leaves the cache untouched. -/
theorem pluginLoadFresh_error_cache (reg : Registry ι)
    (settings : String → ProviderConfig) (cap : String) (cache : Cache ι)
    (err : PlugError)
    (h : (pluginLoadFresh reg settings cap cache).result = .error err) :
    (pluginLoadFresh reg settings cap cache).cache = cache := by
  simp only [pluginLoadFresh] at h ⊢
  split at h
  · simp at h
  · rfl

/-! ## Claim theorems -/

/-- C1 counterexample: with primary "x" and fallback list ["a","a"] the
code computes the chain ["x","a","a"], keeping the duplicate occurrence,
while the claim's chain — the primary followed by the fallbacks with the
primary removed and duplicates removed — is ["x","a"]. -/
theorem C1_counterexample :
    providersToTry "x" (FallbackCfg.list ["a", "a"]) ≠ specChain "x" ["a", "a"] ∧
    providersToTry "x" (FallbackCfg.list ["a", "a"]) = ["x", "a", "a"] ∧
    specChain "x" ["a", "a"] = ["x", "a"] := by decide

/-- C1 (amended): both chain builders compute the primary followed by the
fallback names with every occurrence of the primary removed, preserving
the fallback's original order and its duplicate occurrences (no
deduplication); a scalar fallback counts as a one-element list, and an
absent, empty, or empty-string fallback yields exactly the primary. -/
theorem C1_chain_amended (p : String) (fb : FallbackCfg) :
    providersToTry p fb = p :: fbRemaining p fb ∧
    aiChainOf p fb = providersToTry p fb := by
  constructor
  · cases fb with
    | absent => rfl
    | list l => rfl
    | scalar s =>
      by_cases h : s ≠ "" ∧ s ≠ p
      · simp [providersToTry, fbRemaining, h]
      · simp [providersToTry, fbRemaining, h]
  · cases fb with
    | absent => rfl
    | list l => rfl
    | scalar s =>
      by_cases h1 : s = ""
      · simp [providersToTry, aiChainOf, h1]
      · by_cases h2 : s = p
        · simp [providersToTry, aiChainOf, h1, h2]
        · simp [providersToTry, aiChainOf, h1, h2]

/-- C6 counterexample: "resource exhausted" (with a space) is among the
claim's transient markers but the code checks "resource_exhausted" (with
an underscore) and classifies the message Unknown; conversely
"limit exceeded" contains none of the claim's four markers yet the
code's extra marker "exceeded" makes it Transient. -/
theorem C6_counterexample :
    specTransient4 "resource exhausted" = true ∧
    classify "resource exhausted" = ErrClass.unknown ∧
    specTransient4 "limit exceeded" = false ∧
    classify "limit exceeded" = ErrClass.transient := by decide

/-- C6 (amended): the classifier is a pure total function; any message
containing "quota", "rate limit" or "429" (case-insensitively) is
Transient; a message containing none of the six code markers ("quota",
"rate limit", "429", "too many requests", "resource_exhausted",
"exceeded") is Unknown; and the classification never changes whether the
executor falls back — with any two classifiers the candidate loop
produces the same outcome, the same final state and the same tried
list. -/
theorem C6_classifier_amended :
    (∀ msg : String, specTransient3 msg = true → classify msg = ErrClass.transient) ∧
    (∀ msg : String,
        quotaMarkers.any (fun m => containsSub m.data (lowerChars msg.data)) = false →
        classify msg = ErrClass.unknown) ∧
    (∀ (α β : Type) (cfg : AICfg α β) (cl cl' : String → ErrClass)
        (names : List String) (st : AIState α) (tried : List String)
        (le : Option String) (logs logs' : List LogEv),
        (genLoop cfg cl names st tried le logs).1
            = (genLoop cfg cl' names st tried le logs').1 ∧
        (genLoop cfg cl names st tried le logs).2.1
            = (genLoop cfg cl' names st tried le logs').2.1 ∧
        (genLoop cfg cl names st tried le logs).2.2.1
            = (genLoop cfg cl' names st tried le logs').2.2.1) := by
  refine ⟨?_, ?_, ?_⟩
  · intro msg h
    have hbig : quotaMarkers.any
        (fun m => containsSub m.data (lowerChars msg.data)) = true := by
      simp only [specTransient3, List.any_cons, List.any_nil,
        Bool.or_eq_true, Bool.or_false] at h
      simp only [quotaMarkers, List.any_cons, List.any_nil,
        Bool.or_eq_true, Bool.or_false]
      tauto
    simp [classify, hbig]
  · intro msg h
    simp [classify, h]
  · intro α β cfg cl cl' names st tried le logs logs'
    exact genLoop_cl_agnostic cfg cl cl' names st tried le logs logs'

/-- C6 witness: a concrete quota message classifies Transient. -/
theorem C6_witness :
    classify "HTTP 429" = ErrClass.transient :=
  C6_classifier_amended.1 "HTTP 429" (by decide)

/-- C10 (confirmed): on a cache hit without forced reload, load returns
exactly the cached instance, leaves the cache unchanged, iterates no
candidate, and its entire result is independent of the registry and of
the configured provider — so a configuration change has no observable
effect on load until the entry is invalidated or a forced reload is
requested. -/
theorem C10_cache_hit_frame (reg reg' : Registry ι)
    (settings settings' : String → ProviderConfig) (cap : String)
    (cache : Cache ι) (i : ι) (h : cache cap = some i) :
    pluginLoad reg settings cap false cache = ⟨.ok i, cache, []⟩ ∧
    pluginLoad reg settings cap false cache
        = pluginLoad reg' settings' cap false cache := by
  have h1 : pluginLoad reg settings cap false cache = ⟨.ok i, cache, []⟩ := by
    simp [pluginLoad, h]
  have h2 : pluginLoad reg' settings' cap false cache = ⟨.ok i, cache, []⟩ := by
    simp [pluginLoad, h]
  exact ⟨h1, h1.trans h2.symm⟩

/-- C10 witness: a registry and settings change is invisible on a cache
hit. -/
theorem C10_witness :
    pluginLoad regC settingsW "ai" false (cacheSet clearCache "ai" 5)
        = ⟨.ok 5, cacheSet clearCache "ai" 5, []⟩ ∧
    pluginLoad regC settingsW "ai" false (cacheSet clearCache "ai" 5)
        = pluginLoad regW (fun _ => ⟨"b", FallbackCfg.absent⟩) "ai" false
            (cacheSet clearCache "ai" 5) :=
  C10_cache_hit_frame regC regW settingsW (fun _ => ⟨"b", FallbackCfg.absent⟩)
    "ai" (cacheSet clearCache "ai" 5) 5 (by decide)

/-- C4 counterexample: with unregistered capability "zz" and configured
chain ["a","b"], load iterates both candidates — catching the
unknown-capability ValueError on each iteration as fallback-eligible —
and fails with the aggregated chain-exhausted RuntimeError, not with an
immediate UnknownCapability error raised before any candidate. -/
theorem C4_counterexample :
    (pluginLoad regC settingsW "zz" false (clearCache (ι := Nat))).result
        = .error (.exhausted ["a", "b"] (some "Unknown plugin type: zz")) ∧
    (pluginLoad regC settingsW "zz" false (clearCache (ι := Nat))).attempts
        = ["a", "b"] ∧
    (["a", "b"] : List String) ≠ [] := by decide

/-- C4 (amended): invoking load on a capability absent from the registry
iterates over every candidate of the configured chain, each iteration
raising and catching the unknown-capability ValueError as
fallback-eligible; it performs no construction, invokes no operation,
leaves the cache untouched, and ends with the aggregated chain-exhausted
error whose last error is the unknown-capability message. -/
theorem C4_unknown_capability_amended (reg : Registry ι)
    (settings : String → ProviderConfig) (cap : String) (force : Bool)
    (cache : Cache ι) (hreg : reg cap = none) (hc : cache cap = none) :
    pluginLoad reg settings cap force cache =
      ⟨.error (.exhausted
           (providersToTry (settings cap).provider (settings cap).fallback)
           (some (unknownCapMsg cap))),
       cache,
       providersToTry (settings cap).provider (settings cap).fallback⟩ := by
  rw [pluginLoad_miss reg settings cap force cache hc]
  simp only [pluginLoadFresh, hreg, Option.isSome_none]
  rw [tryProviders_capUnknown]
  obtain ⟨t, ht⟩ := providersToTry_cons (settings cap).provider (settings cap).fallback
  rw [ht]
  simp

/-- C4 witness: the amended statement at the concrete capability "zz". -/
theorem C4_witness :
    pluginLoad regC settingsW "zz" false (clearCache (ι := Nat)) =
      ⟨.error (.exhausted
           (providersToTry (settingsW "zz").provider (settingsW "zz").fallback)
           (some (unknownCapMsg "zz"))),
       clearCache,
       providersToTry (settingsW "zz").provider (settingsW "zz").fallback⟩ :=
  C4_unknown_capability_amended regC settingsW "zz" false clearCache rfl rfl

/-- C7 (confirmed): the instance cache never holds an instance whose
construction raised — loading preserves the invariant that every cached
instance was successfully constructed by a registered provider of its
capability, a failing load leaves the cache exactly as it was, the
cleared cache satisfies the invariant vacuously, and popping an entry
preserves it. -/
theorem C7_cache_invariant (reg : Registry ι) :
    (∀ (settings : String → ProviderConfig) (cap : String) (force : Bool)
        (cache : Cache ι),
        GoodCache reg cache →
        GoodCache reg (pluginLoad reg settings cap force cache).cache) ∧
    (∀ (settings : String → ProviderConfig) (cap : String) (force : Bool)
        (cache : Cache ι) (err : PlugError),
        (pluginLoad reg settings cap force cache).result = .error err →
        (pluginLoad reg settings cap force cache).cache = cache) ∧
    GoodCache reg (clearCache (ι := ι)) ∧
    (∀ (c : Cache ι) (k : String), GoodCache reg c → GoodCache reg (cachePop c k)) := by
  have hload : ∀ (settings : String → ProviderConfig) (cap : String) (force : Bool)
      (cache : Cache ι),
      (pluginLoad reg settings cap force cache).cache = cache ∨
      (∃ inst, ConstructedOk reg cap inst ∧
        (pluginLoad reg settings cap force cache).cache = cacheSet cache cap inst) := by
    intro settings cap force cache
    rcases hcc : cache cap with _ | i
    · rw [pluginLoad_miss reg settings cap force cache hcc]
      exact pluginLoadFresh_spec reg settings cap cache
    · cases force
      · left
        simp [pluginLoad, hcc]
      · rw [pluginLoad_force]
        exact pluginLoadFresh_spec reg settings cap cache
  refine ⟨?_, ?_, ?_, ?_⟩
  · intro settings cap force cache hgood
    rcases hload settings cap force cache with h | ⟨inst, hco, h⟩
    · rw [h]
      exact hgood
    · rw [h]
      intro c i hcj
      by_cases hc2 : c = cap
      · subst hc2
        simp [cacheSet] at hcj
        subst hcj
        exact hco
      · simp [cacheSet, hc2] at hcj
        exact hgood c i hcj
  · intro settings cap force cache err herr
    rcases hcc : cache cap with _ | i
    · rw [pluginLoad_miss reg settings cap force cache hcc] at herr ⊢
      exact pluginLoadFresh_error_cache reg settings cap cache err herr
    · cases force
      · have hhit : pluginLoad reg settings cap false cache = ⟨.ok i, cache, []⟩ := by
          simp [pluginLoad, hcc]
        rw [hhit] at herr
        simp at herr
      · rw [pluginLoad_force] at herr ⊢
        exact pluginLoadFresh_error_cache reg settings cap cache err herr
  · intro c i h
    simp [clearCache] at h
  · intro c k hgood c2 i h
    by_cases h2 : c2 = k
    · subst h2
      simp [cachePop] at h
    · simp only [cachePop, if_neg h2] at h
      exact hgood c2 i h

/-- C7 witness: loading into the empty cache yields a cache satisfying
the construction invariant. -/
theorem C7_witness :
    GoodCache regW (pluginLoad regW settingsW "ai" false (clearCache (ι := Nat))).cache :=
  (C7_cache_invariant regW).1 settingsW "ai" false clearCache
    (fun _ _ h => nomatch h)

/-- C2 counterexample: two successful invocations that return the very
same value — run A served by the primary "a", run B served by the
fallback "b" after "a" failed — so the value returned on success cannot
carry the serving provider's name or the attempt history: the bare
result value is returned. -/
theorem C2_counterexample :
    (generateScript runA.1 runA.2).1 = (generateScript runB.1 runB.2).1 ∧
    (generateScript runA.1 runA.2).2.1.currentProviderName = some "a" ∧
    (generateScript runB.1 runB.2).2.1.currentProviderName = some "b" ∧
    (generateScript runB.1 runB.2).2.2.1 = ["a", "b"] := by decide

/-- C2 (amended): a successful invocation returns only the bare result
value produced by the serving instance's operation; the serving
candidate's name is recorded in the wrapper's mutable current-provider
state (exposed via current_provider_name) as the last tried candidate,
and the attempt history is kept in a local variable that the return
discards. -/
theorem C2_success_bare_result (cfg : AICfg ι ρ) (st : AIState ι) (r : ρ)
    (st' : AIState ι) (tried' : List String) (logs' : List LogEv)
    (h : generateScript cfg st = (.ok r, st', tried', logs')) :
    (∃ inst, st'.currentProvider = some inst ∧ cfg.op inst = .ok r) ∧
    tried' ≠ [] ∧ st'.currentProviderName = tried'.getLast? :=
  genLoop_ok_shape cfg classify cfg.chain st [] none [] r st' tried' logs' h

/-- C2 witness: the amended statement at run A. -/
theorem C2_witness :
    (∃ inst, (generateScript runA.1 runA.2).2.1.currentProvider = some inst ∧
        runA.1.op inst = .ok 42) ∧
    (["a"] : List String) ≠ [] ∧
    (generateScript runA.1 runA.2).2.1.currentProviderName
        = (["a"] : List String).getLast? :=
  C2_success_bare_result runA.1 runA.2 42 _ ["a"] [] rfl

/-- C3 counterexample: chain ["a","b"] where a's operation raises "ea" and
b cannot be loaded — the aggregated error's attempt list is ["a"], of
length 1, not the chain length 2, and it carries only the last error
rather than per-candidate (candidate, error) pairs. -/
theorem C3_counterexample :
    (generateScript runC.1 runC.2).1 = .exhausted ["a"] (some "ea") ∧
    runC.1.chain = ["a", "b"] ∧
    (["a"] : List String).length ≠ (["a", "b"] : List String).length := by decide

/-- C3 (amended): when every candidate fails, the invocation ends with a
single aggregated error carrying the list of candidates whose operation
was actually invoked — a subsequence of the chain in chain order,
omitting candidates whose construction failed — together with only the
last error, not per-candidate pairs; the list equals the loop's final
tried_providers. -/
theorem C3_exhausted_amended (cfg : AICfg ι ρ) (st : AIState ι)
    (t : List String) (le : Option String)
    (h : (generateScript cfg st).1 = .exhausted t le) :
    t = (generateScript cfg st).2.2.1 ∧ t.Sublist cfg.chain := by
  have h1 := genLoop_exhausted_tried cfg classify cfg.chain st [] none [] t le h
  obtain ⟨s, hs, hsub⟩ := genLoop_tried_extends cfg classify cfg.chain st [] none []
  refine ⟨h1, ?_⟩
  rw [h1, hs]
  simpa using hsub

/-- C3 witness: the amended statement at run C. -/
theorem C3_witness :
    ["a"] = (generateScript runC.1 runC.2).2.2.1 ∧
    (["a"] : List String).Sublist runC.1.chain :=
  C3_exhausted_amended runC.1 runC.2 ["a"] (some "ea") (by decide)

/-- C9 counterexample: with fallback list ["a","a"] the chain is
["p","a","a"] and — every operation failing — candidate a's operation is
invoked a second time after its first failure, as the final
tried_providers list ["p","a","a"] shows. -/
theorem C9_counterexample :
    runD.1.chain = ["p", "a", "a"] ∧
    (generateScript runD.1 runD.2).2.2.1 = ["p", "a", "a"] ∧
    ¬ (["p", "a", "a"] : List String).Nodup := by decide

/-- C9 (amended): within one invocation each candidate's operation is
attempted at most once provided the configured chain has no repeated
name (which holds whenever the fallback list has no internal
duplicates); a name repeated in the fallback list is attempted once per
occurrence, even after a failure. -/
theorem C9_no_reattempt_amended (cfg : AICfg ι ρ) (st : AIState ι)
    (h : cfg.chain.Nodup) : ((generateScript cfg st).2.2.1).Nodup := by
  obtain ⟨s, hs, hsub⟩ := genLoop_tried_extends cfg classify cfg.chain st [] none []
  have hs' : (generateScript cfg st).2.2.1 = [] ++ s := hs
  rw [hs']
  simp only [List.nil_append]
  exact h.sublist hsub

/-- C9 witness: the amended statement on run B's duplicate-free chain. -/
theorem C9_witness : ((generateScript runB.1 runB.2).2.2.1).Nodup :=
  C9_no_reattempt_amended runB.1 runB.2 (by decide)

/-- A candidate whose name matches the wrapper's current provider name is
reused without any reload. -/
theorem resolveCandidate_same (cfg : AICfg ι ρ) (name : String) (st : AIState ι)
    (h : st.currentProviderName = some name) :
    resolveCandidate cfg name st = (true, st) := by
  simp [resolveCandidate, h]

/-- A successful eager primary load: `__init__` caches the constructed
instance and points the wrapper at the primary. -/
theorem aiInit_ok (reg : Registry ι) (tbl : String → Option (Except String ι))
    (op : ι → Except String ρ) (p : String) (fb : FallbackCfg)
    (cache0 : Cache ι) (inst : ι)
    (hreg : reg "ai" = some tbl) (hconstruct : tbl p = some (.ok inst))
    (hc0 : cache0 "ai" = none) :
    aiInit reg op p fb cache0 =
      (⟨reg, fb, p, aiChainOf p fb, op⟩,
       ⟨p, cacheSet cache0 "ai" inst, some inst, some p⟩) := by
  have hload : pluginLoad reg (fun _ => ⟨p, fb⟩) "ai" false cache0 =
      ⟨.ok inst, cacheSet cache0 "ai" inst, [p]⟩ := by
    rw [pluginLoad_miss reg (fun _ => ⟨p, fb⟩) "ai" false cache0 hc0]
    exact pluginLoadFresh_head_ok reg tbl (fun _ => ⟨p, fb⟩) "ai" cache0 inst
      hreg hconstruct
  simp only [aiInit, loadPrimary, hload]

/-- A fresh wrapper whose primary constructs and succeeds returns the
primary's operation result after exactly one attempt. -/
theorem generateScript_primary_ok (reg : Registry ι)
    (tbl : String → Option (Except String ι)) (op : ι → Except String ρ)
    (p : String) (fb : FallbackCfg) (cache0 : Cache ι) (inst : ι) (r : ρ)
    (hreg : reg "ai" = some tbl) (hconstruct : tbl p = some (.ok inst))
    (hop : op inst = .ok r) (hc0 : cache0 "ai" = none) :
    generateScript (aiInit reg op p fb cache0).1 (aiInit reg op p fb cache0).2 =
      (.ok r, ⟨p, cacheSet cache0 "ai" inst, some inst, some p⟩, [p], []) := by
  rw [aiInit_ok reg tbl op p fb cache0 inst hreg hconstruct hc0]
  obtain ⟨t, ht⟩ := aiChainOf_cons p fb
  simp only [generateScript]
  rw [ht]
  simp [genLoop, resolveCandidate, hop]

/-- C8 (confirmed): when the primary candidate constructs successfully
(into an empty cache slot) and its operation succeeds, the invocation
attempts exactly one candidate — the returned tried list is the
singleton primary — returns the operation's result, and afterwards the
instance cache holds the primary's constructed instance under "ai". -/
theorem C8_primary_success (reg : Registry ι)
    (tbl : String → Option (Except String ι)) (op : ι → Except String ρ)
    (p : String) (fb : FallbackCfg) (cache0 : Cache ι) (inst : ι) (r : ρ)
    (hreg : reg "ai" = some tbl) (hconstruct : tbl p = some (.ok inst))
    (hop : op inst = .ok r) (hc0 : cache0 "ai" = none) :
    generateScript (aiInit reg op p fb cache0).1 (aiInit reg op p fb cache0).2 =
      (.ok r, ⟨p, cacheSet cache0 "ai" inst, some inst, some p⟩, [p], []) ∧
    cacheSet cache0 "ai" inst "ai" = some inst := by
  refine ⟨generateScript_primary_ok reg tbl op p fb cache0 inst r
    hreg hconstruct hop hc0, ?_⟩
  simp [cacheSet]

/-- C8 witness: run A's configuration — primary "a", no fallback, empty
cache, successful operation. -/
theorem C8_witness :
    generateScript (aiInit regW opA "a" FallbackCfg.absent clearCache).1
        (aiInit regW opA "a" FallbackCfg.absent clearCache).2 =
      (.ok 42, ⟨"a", cacheSet clearCache "ai" 1, some 1, some "a"⟩, ["a"], []) ∧
    cacheSet clearCache "ai" 1 "ai" = some 1 :=
  C8_primary_success regW tblW opA "a" FallbackCfg.absent clearCache 1 42
    rfl (by decide) (by decide) rfl

/-- C5 counterexample: chain ["a","b"] where candidate a (position 1)
fails construction and candidate b (position 2) succeeds, so the claim
requires the outcome's provider name to be "b" with 2 history entries —
but the code succeeds under the name "a" with a single history entry,
because the eager primary load's internal fallback served b's instance
labelled as the primary. -/
theorem C5_counterexample :
    runE.1.chain = ["a", "b"] ∧
    (generateScript runE.1 runE.2).1 = .ok 7 ∧
    (generateScript runE.1 runE.2).2.1.currentProviderName = some "a" ∧
    (generateScript runE.1 runE.2).2.2.1 = ["a"] := by decide

/-- C5 (amended): when every needed candidate constructs successfully,
candidates 1..k-1 fail their operation, and candidate k's operation
succeeds, the invocation returns candidate k's result, the wrapper
records candidate k as the serving provider, the attempt history is
exactly the first k candidates (k entries), and the cache holds
candidate k's instance; when constructions fail, the history may be
shorter than k and the reported name may be an earlier candidate's. -/
theorem C5_kth_success_amended (reg : Registry ι)
    (tbl : String → Option (Except String ι)) (instF : String → ι)
    (op : ι → Except String ρ) (p : String) (fb : FallbackCfg)
    (cache0 : Cache ι) (pre : List String) (nk : String)
    (post : List String) (r : ρ)
    (hreg : reg "ai" = some tbl)
    (hchain : aiChainOf p fb = pre ++ nk :: post)
    (hnd : (pre ++ [nk]).Nodup)
    (hcons : ∀ n ∈ pre ++ [nk], tbl n = some (.ok (instF n)))
    (hfail : ∀ n ∈ pre, exOk (op (instF n)) = false)
    (hok : op (instF nk) = .ok r)
    (hc0 : cache0 "ai" = none) :
    ∃ st' logs',
      generateScript (aiInit reg op p fb cache0).1 (aiInit reg op p fb cache0).2 =
        (.ok r, st', pre ++ [nk], logs') ∧
      st'.currentProviderName = some nk ∧
      st'.cache "ai" = some (instF nk) := by
  obtain ⟨t, ht⟩ := aiChainOf_cons p fb
  cases pre with
  | nil =>
    have hpk : p = nk := by
      rw [ht] at hchain
      simp only [List.nil_append, List.cons.injEq] at hchain
      exact hchain.1
    subst hpk
    have hcp : tbl p = some (.ok (instF p)) := hcons p (by simp)
    have hmain := generateScript_primary_ok reg tbl op p fb cache0 (instF p) r
      hreg hcp hok hc0
    refine ⟨⟨p, cacheSet cache0 "ai" (instF p), some (instF p), some p⟩, [],
      ?_, rfl, ?_⟩
    · simpa using hmain
    · simp [cacheSet]
  | cons q pre' =>
    have hq : q = p ∧ pre' ++ nk :: post = t := by
      rw [ht] at hchain
      simp only [List.cons_append, List.cons.injEq] at hchain
      exact ⟨hchain.1.symm, hchain.2.symm⟩
    obtain ⟨rfl, htt⟩ := hq
    have hcp : tbl q = some (.ok (instF q)) := hcons q (by simp)
    have hpair := aiInit_ok reg tbl op q fb cache0 (instF q) hreg hcp hc0
    have h1 : (aiInit reg op q fb cache0).1 =
        ⟨reg, fb, q, aiChainOf q fb, op⟩ := by rw [hpair]
    have h2 : (aiInit reg op q fb cache0).2 =
        ⟨q, cacheSet cache0 "ai" (instF q), some (instF q), some q⟩ := by
      rw [hpair]
    have h3 : (aiInit reg op q fb cache0).1.chain = q :: (pre' ++ nk :: post) := by
      rw [h1]
      simpa using hchain
    have hnd2 : (pre' ++ [nk]).Nodup ∧ q ∉ pre' ++ [nk] := by
      simp only [List.cons_append, List.nodup_cons] at hnd
      exact ⟨hnd.2, hnd.1⟩
    simp only [generateScript]
    rw [h3, h2]
    simp only [genLoop]
    rw [resolveCandidate_same (aiInit reg op q fb cache0).1 q
      ⟨q, cacheSet cache0 "ai" (instF q), some (instF q), some q⟩ rfl]
    dsimp only
    have hopA : (aiInit reg op q fb cache0).1.op = op := by rw [h1]
    rw [hopA]
    rcases hfq : op (instF q) with e | r2
    · dsimp only
      have hregA : (aiInit reg op q fb cache0).1.registry "ai" = some tbl := by
        rw [h1]
        exact hreg
      have hokA : (aiInit reg op q fb cache0).1.op (instF nk) = .ok r := by
        rw [h1]
        exact hok
      have hprimA : (aiInit reg op q fb cache0).1.primaryName ∉ pre' ++ [nk] := by
        rw [h1]
        exact hnd2.2
      obtain ⟨st', logs', heq, hc1, hc2, hc3⟩ :=
        genLoop_allConstruct_ok (aiInit reg op q fb cache0).1 classify tbl instF
          nk post r hregA (hcons nk (by simp)) hokA pre'
          ⟨q, cacheSet cache0 "ai" (instF q), some (instF q), some q⟩
          ([] ++ [q]) (some e) ([] ++ [logOf classify q e]) q
          (fun x hx => hcons x (by simp [hx]))
          (fun x hx => by
            have := hfail x (by simp [hx])
            rw [show (aiInit reg op q fb cache0).1.op = op from hopA]
            exact this)
          hnd2.1 hprimA rfl hnd2.2
      refine ⟨st', logs', ?_, hc1, hc2⟩
      refine heq.trans ?_
      simp
    · have := hfail q (by simp)
      rw [hfq] at this
      simp [exOk] at this

/-- C5 witness: chain ["a","b","c"], operations of a and b fail, c
succeeds with 9. -/
theorem C5_witness :
    ∃ st' logs',
      generateScript (aiInit regW opF "a" (FallbackCfg.list ["b", "c"]) clearCache).1
          (aiInit regW opF "a" (FallbackCfg.list ["b", "c"]) clearCache).2 =
        (.ok 9, st', ["a", "b"] ++ ["c"], logs') ∧
      st'.currentProviderName = some "c" ∧
      st'.cache "ai" = some (instFW "c") :=
  C5_kth_success_amended regW tblW instFW opF "a" (FallbackCfg.list ["b", "c"])
    clearCache ["a", "b"] "c" [] 9 rfl (by decide) (by decide) (by decide)
    (by decide) (by decide) rfl


end MissionAlpha
